import Mathlib

/-!
Shallow embedding of the simple MailGoat agent
(`examples/simple-agent/agent.py`): a polling agent that lists an inbox
through an external command gateway, auto-replies to unseen messages and
persists the set of processed message ids in a JSON state file.

Python JSON values are modelled by the inductive `Json` (numbers as `Int`:
the agent never produces or inspects fractional numbers).  The state file
is modelled at the parse level by `FileContent`: either text that parses
to a `Json` value or text that does not parse (`corrupt`).  Python `set`
values are modelled as duplicate-free `List Json` with membership as the
set operations.  Exceptions are modelled with `Except String`.
-/

set_option autoImplicit false

namespace MailGoatAgent

/-- A Python/JSON value as produced by `json.loads`. -/
inductive Json where
  | null
  | bool (b : Bool)
  | num (n : Int)
  | str (s : String)
  | arr (elems : List Json)
  | obj (fields : List (String × Json))

mutual

/-- Decidable equality on `Json` (written by hand: the deriving handler
does not support nested inductives). -/
def Json.decEq : (a b : Json) → Decidable (a = b)
  | .null, .null => isTrue rfl
  | .bool a, .bool b =>
    match Bool.decEq a b with
    | isTrue h => isTrue (by rw [h])
    | isFalse h => isFalse (by intro hh; injection hh; contradiction)
  | .num a, .num b =>
    match Int.decEq a b with
    | isTrue h => isTrue (by rw [h])
    | isFalse h => isFalse (by intro hh; injection hh; contradiction)
  | .str a, .str b =>
    match String.decEq a b with
    | isTrue h => isTrue (by rw [h])
    | isFalse h => isFalse (by intro hh; injection hh; contradiction)
  | .arr a, .arr b =>
    match Json.decEqList a b with
    | isTrue h => isTrue (by rw [h])
    | isFalse h => isFalse (by intro hh; injection hh; contradiction)
  | .obj a, .obj b =>
    match Json.decEqFields a b with
    | isTrue h => isTrue (by rw [h])
    | isFalse h => isFalse (by intro hh; injection hh; contradiction)
  | .null, .bool _ | .null, .num _ | .null, .str _ | .null, .arr _ | .null, .obj _ =>
    isFalse nofun
  | .bool _, .null | .bool _, .num _ | .bool _, .str _ | .bool _, .arr _ | .bool _, .obj _ =>
    isFalse nofun
  | .num _, .null | .num _, .bool _ | .num _, .str _ | .num _, .arr _ | .num _, .obj _ =>
    isFalse nofun
  | .str _, .null | .str _, .bool _ | .str _, .num _ | .str _, .arr _ | .str _, .obj _ =>
    isFalse nofun
  | .arr _, .null | .arr _, .bool _ | .arr _, .num _ | .arr _, .str _ | .arr _, .obj _ =>
    isFalse nofun
  | .obj _, .null | .obj _, .bool _ | .obj _, .num _ | .obj _, .str _ | .obj _, .arr _ =>
    isFalse nofun

/-- Decidable equality on lists of `Json`. -/
def Json.decEqList : (a b : List Json) → Decidable (a = b)
  | [], [] => isTrue rfl
  | [], _ :: _ => isFalse nofun
  | _ :: _, [] => isFalse nofun
  | x :: xs, y :: ys =>
    match Json.decEq x y, Json.decEqList xs ys with
    | isTrue h1, isTrue h2 => isTrue (by rw [h1, h2])
    | isFalse h1, _ => isFalse (by intro hh; injection hh; contradiction)
    | _, isFalse h2 => isFalse (by intro hh; injection hh; contradiction)

/-- Decidable equality on `Json` object field lists. -/
def Json.decEqFields : (a b : List (String × Json)) → Decidable (a = b)
  | [], [] => isTrue rfl
  | [], _ :: _ => isFalse nofun
  | _ :: _, [] => isFalse nofun
  | (k1, v1) :: xs, (k2, v2) :: ys =>
    match String.decEq k1 k2, Json.decEq v1 v2, Json.decEqFields xs ys with
    | isTrue h1, isTrue h2, isTrue h3 => isTrue (by rw [h1, h2, h3])
    | isFalse h1, _, _ =>
      isFalse (by intro hh; injection hh with hhd htl; injection hhd; contradiction)
    | _, isFalse h2, _ =>
      isFalse (by intro hh; injection hh with hhd htl; injection hhd; contradiction)
    | _, _, isFalse h3 =>
      isFalse (by intro hh; injection hh; contradiction)

end

instance : DecidableEq Json := Json.decEq

/-- The content of the state file, abstracted at the parse level:
`corrupt raw` is text that `json.loads` rejects, `json v` is text that
parses to the value `v`. -/
inductive FileContent where
  | corrupt (raw : String)
  | json (v : Json)
  deriving DecidableEq

/-- Python whitespace as stripped by `str.strip()` (the ASCII part;
exotic Unicode whitespace is not modelled). -/
def isPySpace (c : Char) : Bool :=
  c = ' ' || c = Char.ofNat 9 || c = Char.ofNat 10 || c = Char.ofNat 13 ||
    c = Char.ofNat 11 || c = Char.ofNat 12

/-- Python `str.strip()` (implemented on the character list so that it
computes inside the kernel). -/
def pyStrip (s : String) : String :=
  String.mk (((s.data.dropWhile isPySpace).reverse.dropWhile isPySpace).reverse)

/-- Python `str.lower()` (ASCII case folding). -/
def pyLower (s : String) : String :=
  String.mk (s.data.map Char.toLower)

/-- Python `s.startswith(pre)`. -/
def pyStartsWith (s pre : String) : Bool :=
  pre.data.isPrefixOf s.data

/-- Python `s < t` on strings: lexicographic comparison by code point. -/
def charListLt : List Char → List Char → Bool
  | [], [] => false
  | [], _ :: _ => true
  | _ :: _, [] => false
  | a :: as, b :: bs =>
    if a.toNat < b.toNat then true
    else if b.toNat < a.toNat then false
    else charListLt as bs

/-- See `charListLt`. -/
def pyStrLt (s t : String) : Bool :=
  charListLt s.data t.data

/-- `d.get(k, dflt)` on a parsed JSON object (parsed objects have unique
keys, so first-occurrence lookup is adequate). -/
def dictGet (fields : List (String × Json)) (k : String) (dflt : Json) : Json :=
  match fields.lookup k with
  | some v => v
  | none => dflt

mutual

/-- Python `repr` of a JSON value (string escaping of embedded quote
characters is not modelled; the agent only feeds plain identifier strings
through it). -/
def pyRepr : Json → String
  | .null => "None"
  | .bool true => "True"
  | .bool false => "False"
  | .num n => toString n
  | .str s => String.mk [Char.ofNat 39] ++ s ++ String.mk [Char.ofNat 39]
  | .arr es => "[" ++ pyReprSeq es ++ "]"
  | .obj fs => "\x7b" ++ pyReprFields fs ++ "\x7d"

/-- Comma-separated `repr`s of the elements of a list. -/
def pyReprSeq : List Json → String
  | [] => ""
  | [e] => pyRepr e
  | e :: rest => pyRepr e ++ ", " ++ pyReprSeq rest

/-- Comma-separated `repr`s of the key/value pairs of a dict. -/
def pyReprFields : List (String × Json) → String
  | [] => ""
  | [(k, v)] => pyRepr (.str k) ++ ": " ++ pyRepr v
  | (k, v) :: rest => pyRepr (.str k) ++ ": " ++ pyRepr v ++ ", " ++ pyReprFields rest

end

/-- Python `str` of a JSON value: identity on strings, `repr` otherwise
(for `None`, booleans, numbers and containers `str` agrees with `repr`). -/
def pyStr : Json → String
  | .str s => s
  | v => pyRepr v

/-- Whether a JSON value is hashable in Python (containers are not, so
`set(...)` over a list containing one raises `TypeError`). -/
def hashableJson : Json → Bool
  | .arr _ => false
  | .obj _ => false
  | _ => true

/-- Python `set(v)` on a JSON value: `none` models the `TypeError` raised
when `v` is not iterable or contains an unhashable element.  Iterating a
string yields its characters, iterating a dict yields its keys. -/
def pySet (v : Json) : Option (List Json) :=
  match v with
  | .arr elems => if elems.all hashableJson then some elems.dedup else none
  | .str s => some ((s.toList.map fun c => Json.str (String.mk [c])).dedup)
  | .obj fields => some ((fields.map fun kv => Json.str kv.1).dedup)
  | _ => none

/-- `load_state`: missing file, unparsable content, a payload that is not
a dict, or a `processed_ids` value that `set(...)` rejects all yield the
empty set; otherwise the set of listed ids.  Total: no exception escapes
(the Python code wraps everything after the existence check in
`try ... except Exception: return set()`). -/
def load_state (file : Option FileContent) : List Json :=
  match file with
  | none => []
  | some (.corrupt _) => []
  | some (.json payload) =>
    match payload with
    | .obj fields =>
      match pySet (dictGet fields "processed_ids" (.arr [])) with
      | some s => s
      | none => []
    | _ => []

/-- Python `x < y` on JSON scalars: strings compare lexicographically,
numbers and booleans numerically (`True == 1`, `False == 0`); any other
pairing models `TypeError` (`none`).  Containers never occur here: set
elements are hashable, hence scalars. -/
def pyNumVal : Json → Option Int
  | .num n => some n
  | .bool true => some 1
  | .bool false => some 0
  | _ => none

/-- See `pyNumVal`. -/
def pyLt (a b : Json) : Option Bool :=
  match a, b with
  | .str s, .str t => some (pyStrLt s t)
  | _, _ =>
    match pyNumVal a, pyNumVal b with
    | some m, some n => some (decide (m < n))
    | _, _ => none

/-- Insert into a sorted list using Python comparison; `none` propagates a
`TypeError` from an incomparable pair. -/
def pyInsert (a : Json) : List Json → Option (List Json)
  | [] => some [a]
  | b :: l =>
    match pyLt a b with
    | none => none
    | some true => some (a :: b :: l)
    | some false => (pyInsert a l).map fun r => b :: r

/-- Python `sorted(...)`: insertion sort with `none` for `TypeError` on an
incomparable pair (a one-element list involves no comparison, as in
Python). -/
def pySorted : List Json → Option (List Json)
  | [] => some []
  | a :: l => (pySorted l).bind (pyInsert a)

/-- `save_state`: serializes `\x7b"processed_ids": sorted(processed)\x7d`
to the state file.  `none` models the `TypeError` raised by `sorted` on a
set with incomparable members (raised before any write happens). -/
def save_state (processed : List Json) : Option FileContent :=
  match pySorted processed with
  | some l => some (.json (.obj [("processed_ids", .arr l)]))
  | none => none

/-- The environment configuration of the agent: `POLL_SECONDS`,
`REPLY_PREFIX` (called the reply marker here) and `MAILGOAT_FROM`.
The state file location is implicit: the file content itself is threaded
through the functions. -/
structure Config where
  pollSeconds : Nat
  replyMarker : String
  fromHint : String
  deriving DecidableEq

/-- The defaults of the environment variables. -/
def defaultConfig : Config :=
  { pollSeconds := 300, replyMarker := "[Auto-Reply]", fromHint := "" }

/-- `build_reply_subject`, with the `REPLY_PREFIX` global passed as the
`marker` argument.  An empty (falsy) subject becomes `(no subject)`;
otherwise the subject is stripped; a stripped subject already starting
with `re:` (case-insensitively) is only prefixed with the marker.
`effectiveSubject` is the `subject` local variable of the source. -/
def effectiveSubject (original_subject : String) : String :=
  if original_subject = "" then "(no subject)" else pyStrip original_subject

/-- The subject of the reply: see `effectiveSubject` for the `subject`
local variable. -/
def build_reply_subject (marker : String) (original_subject : String) : String :=
  if pyStartsWith (pyLower (effectiveSubject original_subject)) "re:" then
    marker ++ " " ++ effectiveSubject original_subject
  else marker ++ " Re: " ++ effectiveSubject original_subject

/-- `build_reply_body`: the fixed acknowledgment template. -/
def build_reply_body (sender subject : String) : String :=
  String.intercalate "\n"
    ["Hello " ++ (if sender = "" then "there" else sender) ++ ",",
     "",
     "Your email was received by the simple MailGoat agent.",
     "This is an automated acknowledgment while a human reviews your message.",
     "",
     "Original subject: " ++ (if subject = "" then "(no subject)" else subject),
     "",
     "- MailGoat Simple Agent"]

/-- The captured result of one subprocess invocation of the `mailgoat`
executable: exit code plus the two captured output streams. -/
structure RunOutcome where
  returncode : Int
  stdout : String
  stderr : String

/-- Diagnostic message on a non-zero exit: the stripped error stream,
falling back to the stripped standard output, falling back to a generic
message. -/
def failDiagnostic (r : RunOutcome) : String :=
  if pyStrip r.stderr ≠ "" then pyStrip r.stderr
  else if pyStrip r.stdout ≠ "" then pyStrip r.stdout
  else "mailgoat command failed"

/-- `run_mailgoat`, viewed as a function of the captured subprocess
result `r`.  `json.loads` is abstracted as the parameter `parse`
(`none` = parse failure); the function treats it opaquely.  `.error`
models a raised exception, `.ok none` models the `None` returned for a
successful call with empty output. -/
def run_mailgoat (parse : String → Option Json) (r : RunOutcome) :
    Except String (Option Json) :=
  if r.returncode ≠ 0 then .error (failDiagnostic r)
  else
    let out := pyStrip r.stdout
    if out = "" then .ok none
    else
      match parse out with
      | some v => .ok (some v)
      | none => .error "JSONDecodeError"

/-- A gateway: the observable behaviour of `run_mailgoat` as a function
of the argument list passed to it (the result of composing the subprocess
call and output parsing). -/
abbrev Gw : Type := List String → Except String (Option Json)

/-- Composing a subprocess model and a parse function into a gateway,
including the `["mailgoat", *args, "--json"]` command construction. -/
def gatewayOf (invoke : List String → RunOutcome) (parse : String → Option Json) : Gw :=
  fun args => run_mailgoat parse (invoke (["mailgoat"] ++ args ++ ["--json"]))

/-- The argument list of the inbox listing call. -/
def listCall : List String := ["inbox", "list", "--limit", "50"]

/-- The exception message used to model a Python `AttributeError`
(raised by `.get` on a value that is not a dict, e.g. `None`). -/
def attrErrMsg : String := "AttributeError"

/-- The exception message used to model the Python `TypeError` raised by
`sorted` on incomparable set members. -/
def typeErrMsg : String := "TypeError"

/-- Python `set.add`: appends the id when it is not yet a member. -/
def addId (processed : List Json) (m : String) : List Json :=
  if Json.str m ∈ processed then processed else processed ++ [Json.str m]

/-- The trimmed `str(entry.get("id", ""))` of an inbox entry dict. -/
def entryIdOf (fields : List (String × Json)) : String :=
  pyStrip (pyStr (dictGet fields "id" (.str "")))

/-- The `send` argument list built for one reply. -/
def sendArgs (cfg : Config) (sender subject : String) : List String :=
  ["send", "--to", sender, "--subject",
    build_reply_subject cfg.replyMarker subject, "--body",
    build_reply_body sender subject] ++
    (if cfg.fromHint ≠ "" then ["--from", cfg.fromHint] else [])

/-- The trimmed `str(details.get("from", ""))` of a message details dict. -/
def senderOf (dfields : List (String × Json)) : String :=
  pyStrip (pyStr (dictGet dfields "from" (.str "")))

/-- The trimmed `str(details.get("subject", ""))` of a message details dict. -/
def subjectOf (dfields : List (String × Json)) : String :=
  pyStrip (pyStr (dictGet dfields "subject" (.str "")))

/-- One iteration of the entry loop of `process_messages`: either the new
in-memory processed set, or a raised exception; paired with the gateway
calls it performed. -/
def handleEntry (cfg : Config) (gw : Gw) (processed : List Json) (e : Json) :
    Except String (List Json) × List (List String) :=
  match e with
  | .obj fields =>
    if entryIdOf fields = "" ∨ Json.str (entryIdOf fields) ∈ processed then
      (.ok processed, [])
    else
      match gw ["read", entryIdOf fields] with
      | .error msg => (.error msg, [["read", entryIdOf fields]])
      | .ok none => (.error attrErrMsg, [["read", entryIdOf fields]])
      | .ok (some details) =>
        match details with
        | .obj dfields =>
          if senderOf dfields = "" then
            (.ok (addId processed (entryIdOf fields)), [["read", entryIdOf fields]])
          else
            match gw (sendArgs cfg (senderOf dfields) (subjectOf dfields)) with
            | .error msg =>
              (.error msg,
                [["read", entryIdOf fields], sendArgs cfg (senderOf dfields) (subjectOf dfields)])
            | .ok _ =>
              (.ok (addId processed (entryIdOf fields)),
                [["read", entryIdOf fields], sendArgs cfg (senderOf dfields) (subjectOf dfields)])
        | _ => (.error attrErrMsg, [["read", entryIdOf fields]])
  | _ => (.error attrErrMsg, [])

/-- The result of the entry loop: the outcome (`.error` = a raised
exception aborting the rest of the pass), the in-memory processed set at
that point, and the gateway calls performed. -/
structure LoopRes where
  outcome : Except String Unit
  processed : List Json
  calls : List (List String)

/-- The entry loop of `process_messages` over the listed entries. -/
def processLoop (cfg : Config) (gw : Gw) : List Json → List Json → LoopRes
  | [], processed => ⟨.ok (), processed, []⟩
  | e :: rest, processed =>
    match handleEntry cfg gw processed e with
    | (.error msg, calls) => ⟨.error msg, processed, calls⟩
    | (.ok processed2, calls) =>
      ⟨(processLoop cfg gw rest processed2).outcome,
        (processLoop cfg gw rest processed2).processed,
        calls ++ (processLoop cfg gw rest processed2).calls⟩

/-- The result of one Processing Cycle: the outcome (`.error` = an
exception propagating to the caller), the state file after the cycle and
the gateway calls performed, in order. -/
structure CycleRes where
  outcome : Except String Unit
  file : Option FileContent
  calls : List (List String)

/-- Whether a parsed gateway result is a Python list
(`isinstance(inbox, list)`). -/
def isPyList : Option Json → Bool
  | some (.arr _) => true
  | _ => false

/-- The tail of `process_messages` once the listing turned out to be a
list: run the entry loop, then (only on a fully successful pass) save. -/
def finishCycle (cfg : Config) (gw : Gw) (file : Option FileContent)
    (entries : List Json) : CycleRes :=
  match processLoop cfg gw entries (load_state file) with
  | ⟨.error msg, _, calls⟩ => ⟨.error msg, file, listCall :: calls⟩
  | ⟨.ok _, processed, calls⟩ =>
    match save_state processed with
    | none => ⟨.error typeErrMsg, file, listCall :: calls⟩
    | some f => ⟨.ok (), some f, listCall :: calls⟩

/-- `process_messages`: one Processing Cycle.  Loads the state, lists the
inbox (aborting softly when the payload is not a list), loops over the
entries and saves the updated set after a failure-free pass. -/
def process_messages (cfg : Config) (gw : Gw) (file : Option FileContent) : CycleRes :=
  match gw listCall with
  | .error msg => ⟨.error msg, file, [listCall]⟩
  | .ok v =>
    match v with
    | some (.arr entries) => finishCycle cfg gw file entries
    | _ => ⟨.ok (), file, [listCall]⟩

/-- The result of one iteration of the `main` loop: the state file after
the iteration, the diagnostic printed when the cycle raised, and the
number of seconds slept afterwards. -/
structure StepRes where
  file : Option FileContent
  diag : Option String
  sleep : Nat

/-- One iteration of the `main` poll loop: run a cycle, catch any
exception (printing a diagnostic), then sleep `POLL_SECONDS`. -/
def agent_step (cfg : Config) (gw : Gw) (file : Option FileContent) : StepRes :=
  match process_messages cfg gw file with
  | ⟨.ok _, f, _⟩ => ⟨f, none, cfg.pollSeconds⟩
  | ⟨.error e, f, _⟩ => ⟨f, some ("Agent iteration failed: " ++ e), cfg.pollSeconds⟩

/-- The state file after `n` iterations of the `main` loop; the gateway
may behave differently on each iteration (`gw n` is the environment seen
by cycle `n`). -/
def agent_run (cfg : Config) (gw : Nat → Gw) (file0 : Option FileContent) : Nat → Option FileContent
  | 0 => file0
  | n + 1 => (agent_step cfg (gw n) (agent_run cfg gw file0 n)).file

/-- A concrete healthy gateway: one unseen entry `m1` from `a@b.com`. -/
def gwDemo : Gw := fun args =>
  if args = listCall then .ok (some (.arr [.obj [("id", .str "m1")]]))
  else if args = ["read", "m1"] then
    .ok (some (.obj [("from", .str "a@b.com"), ("subject", .str "Hi")]))
  else .ok (some (.obj [("status", .str "sent")]))

/-- A concrete state file whose processed set is `\x7b"m0"\x7d`. -/
def fileDemo : Option FileContent :=
  some (.json (.obj [("processed_ids", .arr [.str "m0"])]))

/-- A concrete gateway listing three unseen entries whose `send` fails
for the second sender only. -/
def gwSendFail : Gw := fun args =>
  if args = listCall then
    .ok (some (.arr [.obj [("id", .str "m1")], .obj [("id", .str "m2")],
      .obj [("id", .str "m3")]]))
  else if args = ["read", "m1"] then
    .ok (some (.obj [("from", .str "a@x"), ("subject", .str "s1")]))
  else if args = ["read", "m2"] then
    .ok (some (.obj [("from", .str "b@x"), ("subject", .str "s2")]))
  else if args = ["read", "m3"] then
    .ok (some (.obj [("from", .str "c@x"), ("subject", .str "s3")]))
  else if "b@x" ∈ args then .error "send failed"
  else .ok none

/-- A concrete gateway that fails every call. -/
def gwFail : Gw := fun _ => .error "boom"

/-- A concrete gateway whose listing parses to a string, not a list. -/
def gwNotList : Gw := fun _ => .ok (some (.str "oops"))

/-- A concrete gateway with one unseen entry whose `read` succeeds with
empty output, so the parsed payload is `None`. -/
def gwReadNone : Gw := fun args =>
  if args = listCall then .ok (some (.arr [.obj [("id", .str "m9")]]))
  else .ok none

theorem addId_mem (p : List Json) (m : String) (x : Json) :
    x ∈ addId p m ↔ x ∈ p ∨ x = Json.str m := by
  unfold addId
  split
  · rename_i hmem
    constructor
    · exact fun h => Or.inl h
    · rintro (h | rfl)
      · exact h
      · exact hmem
  · simp [List.mem_append]

theorem addId_sub (p : List Json) (m : String) : ∀ x ∈ p, x ∈ addId p m :=
  fun x hx => (addId_mem p m x).mpr (Or.inl hx)

theorem handleEntry_ok_sub (cfg : Config) (gw : Gw) (p : List Json) (e : Json)
    (p2 : List Json) (cs : List (List String))
    (h : handleEntry cfg gw p e = (.ok p2, cs)) : ∀ x ∈ p, x ∈ p2 := by
  unfold handleEntry at h
  split at h
  · split at h
    · cases h
      exact fun x hx => hx
    · split at h
      · cases h
      · cases h
      · split at h
        · split at h
          · cases h
            exact addId_sub p _
          · split at h
            · cases h
            · cases h
              exact addId_sub p _
        · cases h
  · cases h

theorem handleEntry_ok_covered (cfg : Config) (gw : Gw) (p : List Json) (e : Json)
    (p2 : List Json) (cs : List (List String))
    (h : handleEntry cfg gw p e = (.ok p2, cs)) :
    ∃ fields, e = .obj fields ∧
      (entryIdOf fields = "" ∨ Json.str (entryIdOf fields) ∈ p2) := by
  unfold handleEntry at h
  split at h
  · rename_i fields
    refine ⟨fields, rfl, ?_⟩
    split at h
    · rename_i hskip
      cases h
      exact hskip
    · split at h
      · cases h
      · cases h
      · split at h
        · split at h
          · cases h
            exact Or.inr ((addId_mem p _ _).mpr (Or.inr rfl))
          · split at h
            · cases h
            · cases h
              exact Or.inr ((addId_mem p _ _).mpr (Or.inr rfl))
        · cases h
  · cases h

theorem handleEntry_skip (cfg : Config) (gw : Gw) (p : List Json)
    (fields : List (String × Json))
    (h : entryIdOf fields = "" ∨ Json.str (entryIdOf fields) ∈ p) :
    handleEntry cfg gw p (.obj fields) = (.ok p, []) := by
  unfold handleEntry
  simp [h]

theorem processLoop_nil (cfg : Config) (gw : Gw) (p : List Json) :
    processLoop cfg gw [] p = ⟨.ok (), p, []⟩ := rfl

theorem processLoop_cons (cfg : Config) (gw : Gw) (e : Json) (rest p : List Json) :
    processLoop cfg gw (e :: rest) p =
      match handleEntry cfg gw p e with
      | (.error msg, calls) => ⟨.error msg, p, calls⟩
      | (.ok p2, calls) =>
        ⟨(processLoop cfg gw rest p2).outcome, (processLoop cfg gw rest p2).processed,
          calls ++ (processLoop cfg gw rest p2).calls⟩ := rfl

theorem processLoop_sub (cfg : Config) (gw : Gw) (entries : List Json) :
    ∀ p, ∀ x ∈ p, x ∈ (processLoop cfg gw entries p).processed := by
  induction entries with
  | nil => intro p x hx; simpa [processLoop_nil] using hx
  | cons e rest ih =>
    intro p x hx
    rcases hhe : handleEntry cfg gw p e with ⟨res, calls⟩
    cases res with
    | error msg =>
      rw [processLoop_cons, hhe]
      exact hx
    | ok p2 =>
      rw [processLoop_cons, hhe]
      exact ih p2 x (handleEntry_ok_sub cfg gw p e p2 calls hhe x hx)

theorem processLoop_ok_head (cfg : Config) (gw : Gw) (e : Json) (rest : List Json)
    (p : List Json) (h : (processLoop cfg gw (e :: rest) p).outcome = .ok ()) :
    ∃ p2 cs, handleEntry cfg gw p e = (.ok p2, cs) ∧
      (processLoop cfg gw rest p2).outcome = .ok () ∧
      (processLoop cfg gw (e :: rest) p).processed = (processLoop cfg gw rest p2).processed := by
  rcases hhe : handleEntry cfg gw p e with ⟨res, calls⟩
  cases res with
  | error msg =>
    rw [processLoop_cons, hhe] at h
    simp at h
  | ok p2 =>
    rw [processLoop_cons, hhe] at h
    refine ⟨p2, calls, rfl, ?_, ?_⟩
    · simpa using h
    · rw [processLoop_cons, hhe]

theorem processLoop_ok_covered (cfg : Config) (gw : Gw) (entries : List Json) :
    ∀ p, (processLoop cfg gw entries p).outcome = .ok () →
    ∀ e ∈ entries, ∃ fields, e = .obj fields ∧
      (entryIdOf fields = "" ∨
        Json.str (entryIdOf fields) ∈ (processLoop cfg gw entries p).processed) := by
  induction entries with
  | nil => intro p _ e he; cases he
  | cons e0 rest ih =>
    intro p h e he
    obtain ⟨p2, cs, hhe, hrest, heq⟩ := processLoop_ok_head cfg gw e0 rest p h
    rcases List.mem_cons.mp he with rfl | hmem
    · obtain ⟨fields, hf, hcov⟩ := handleEntry_ok_covered cfg gw p e p2 cs hhe
      refine ⟨fields, hf, ?_⟩
      rcases hcov with hid | hin
      · exact Or.inl hid
      · refine Or.inr ?_
        rw [heq]
        exact processLoop_sub cfg gw rest p2 _ hin
    · obtain ⟨fields, hf, hcov⟩ := ih p2 hrest e hmem
      refine ⟨fields, hf, ?_⟩
      rcases hcov with hid | hin
      · exact Or.inl hid
      · refine Or.inr ?_
        rw [heq]
        exact hin

theorem processLoop_all_skip (cfg : Config) (gw : Gw) (entries : List Json) :
    ∀ p, (∀ e ∈ entries, ∃ fields, e = .obj fields ∧
      (entryIdOf fields = "" ∨ Json.str (entryIdOf fields) ∈ p)) →
    processLoop cfg gw entries p = ⟨.ok (), p, []⟩ := by
  induction entries with
  | nil => intro p _; rfl
  | cons e rest ih =>
    intro p h
    obtain ⟨fields, rfl, hcov⟩ := h e (List.mem_cons_self e rest)
    have hrest : processLoop cfg gw rest p = ⟨.ok (), p, []⟩ :=
      ih p fun e2 he2 => h e2 (List.mem_cons_of_mem _ he2)
    rw [processLoop_cons, handleEntry_skip cfg gw p fields hcov]
    simp [hrest]

theorem pyInsert_mem (a : Json) (l : List Json) :
    ∀ r, pyInsert a l = some r → ∀ x, x ∈ r ↔ x = a ∨ x ∈ l := by
  induction l with
  | nil =>
    intro r h x
    cases h
    simp
  | cons b t ih =>
    intro r h x
    unfold pyInsert at h
    cases hlt : pyLt a b with
    | none => rw [hlt] at h; cases h
    | some bv =>
      rw [hlt] at h
      cases bv with
      | true =>
        simp only [Option.some.injEq] at h
        subst h
        simp [List.mem_cons]
      | false =>
        cases hr : pyInsert a t with
        | none => rw [hr] at h; cases h
        | some rt =>
          rw [hr] at h
          simp only [Option.map_some', Option.some.injEq] at h
          subst h
          have hmem := ih rt hr x
          simp only [List.mem_cons, hmem]
          tauto

theorem pySorted_mem (l : List Json) :
    ∀ r, pySorted l = some r → ∀ x, x ∈ r ↔ x ∈ l := by
  induction l with
  | nil =>
    intro r h x
    cases h
    simp
  | cons a t ih =>
    intro r h x
    unfold pySorted at h
    cases hs : pySorted t with
    | none => rw [hs] at h; cases h
    | some rt =>
      rw [hs] at h
      simp only [Option.some_bind] at h
      rw [pyInsert_mem a rt r h x, ih rt hs x]
      simp [List.mem_cons]

theorem pyInsert_str (s : String) (l : List Json)
    (hl : ∀ x ∈ l, ∃ t, x = Json.str t) : ∃ r, pyInsert (.str s) l = some r := by
  induction l with
  | nil => exact ⟨[.str s], rfl⟩
  | cons b t ih =>
    obtain ⟨tb, rfl⟩ := hl b (List.mem_cons_self b t)
    have hplt : pyLt (Json.str s) (Json.str tb) = some (pyStrLt s tb) := rfl
    cases hb : pyStrLt s tb with
    | true =>
      refine ⟨.str s :: .str tb :: t, ?_⟩
      unfold pyInsert
      rw [hplt, hb]
    | false =>
      obtain ⟨r, hr⟩ := ih fun x hx => hl x (List.mem_cons_of_mem _ hx)
      refine ⟨.str tb :: r, ?_⟩
      unfold pyInsert
      rw [hplt, hb, hr]
      rfl

theorem pySorted_str (l : List Json) (hl : ∀ x ∈ l, ∃ t, x = Json.str t) :
    ∃ r, pySorted l = some r := by
  induction l with
  | nil => exact ⟨[], rfl⟩
  | cons a t ih =>
    obtain ⟨rt, hrt⟩ := ih fun x hx => hl x (List.mem_cons_of_mem _ hx)
    obtain ⟨ta, rfl⟩ := hl a (List.mem_cons_self a t)
    have hrt2 : ∀ x ∈ rt, ∃ u, x = Json.str u := by
      intro x hx
      exact hl x (List.mem_cons_of_mem _ ((pySorted_mem t rt hrt x).mp hx))
    obtain ⟨r, hr⟩ := pyInsert_str ta rt hrt2
    refine ⟨r, ?_⟩
    unfold pySorted
    rw [hrt]
    simpa using hr

theorem pySet_arr (elems : List Json) :
    pySet (.arr elems) = if elems.all hashableJson then some elems.dedup else none := rfl

theorem load_state_obj (fields : List (String × Json)) :
    load_state (some (.json (.obj fields))) =
      match pySet (dictGet fields "processed_ids" (.arr [])) with
      | some s => s
      | none => [] := rfl

theorem pySet_hashable (v : Json) (s : List Json) (h : pySet v = some s) :
    ∀ x ∈ s, hashableJson x = true := by
  cases v with
  | arr elems =>
    rw [pySet_arr] at h
    split at h
    · rename_i hall
      injection h with h2
      subst h2
      intro x hx
      exact List.all_eq_true.mp hall x (List.mem_dedup.mp hx)
    · cases h
  | str t =>
    simp only [pySet, Option.some.injEq] at h
    subst h
    intro x hx
    obtain ⟨c, _, rfl⟩ := List.mem_map.mp (List.mem_dedup.mp hx)
    rfl
  | obj fields =>
    simp only [pySet, Option.some.injEq] at h
    subst h
    intro x hx
    obtain ⟨kv, _, rfl⟩ := List.mem_map.mp (List.mem_dedup.mp hx)
    rfl
  | null => simp only [pySet] at h; cases h
  | bool b => simp only [pySet] at h; cases h
  | num n => simp only [pySet] at h; cases h

theorem load_state_hashable (file : Option FileContent) :
    ∀ x ∈ load_state file, hashableJson x = true := by
  cases file with
  | none => intro x hx; cases hx
  | some fc =>
    cases fc with
    | corrupt raw => intro x hx; cases hx
    | json payload =>
      cases payload with
      | obj fields =>
        rw [load_state_obj]
        cases hps : pySet (dictGet fields "processed_ids" (.arr [])) with
        | none => intro x hx; cases hx
        | some s =>
          intro x hx
          exact pySet_hashable _ s hps x hx
      | null => intro x hx; cases hx
      | bool b => intro x hx; cases hx
      | num n => intro x hx; cases hx
      | str t => intro x hx; cases hx
      | arr es => intro x hx; cases hx

theorem addId_hashable (p : List Json) (m : String)
    (hp : ∀ x ∈ p, hashableJson x = true) : ∀ x ∈ addId p m, hashableJson x = true := by
  intro x hx
  rcases (addId_mem p m x).mp hx with h | rfl
  · exact hp x h
  · rfl

theorem handleEntry_ok_hashable (cfg : Config) (gw : Gw) (p : List Json) (e : Json)
    (p2 : List Json) (cs : List (List String))
    (h : handleEntry cfg gw p e = (.ok p2, cs))
    (hp : ∀ x ∈ p, hashableJson x = true) : ∀ x ∈ p2, hashableJson x = true := by
  unfold handleEntry at h
  split at h
  · split at h
    · cases h
      exact hp
    · split at h
      · cases h
      · cases h
      · split at h
        · split at h
          · cases h
            exact addId_hashable p _ hp
          · split at h
            · cases h
            · cases h
              exact addId_hashable p _ hp
        · cases h
  · cases h

theorem processLoop_hashable (cfg : Config) (gw : Gw) (entries : List Json) :
    ∀ p, (∀ x ∈ p, hashableJson x = true) →
    ∀ x ∈ (processLoop cfg gw entries p).processed, hashableJson x = true := by
  induction entries with
  | nil => intro p hp; simpa [processLoop_nil] using hp
  | cons e rest ih =>
    intro p hp
    rcases hhe : handleEntry cfg gw p e with ⟨res, calls⟩
    cases res with
    | error msg =>
      rw [processLoop_cons, hhe]
      exact hp
    | ok p2 =>
      rw [processLoop_cons, hhe]
      exact ih p2 (handleEntry_ok_hashable cfg gw p e p2 calls hhe hp)

theorem save_load_mem (p : List Json) (f : FileContent)
    (hp : ∀ x ∈ p, hashableJson x = true) (h : save_state p = some f) :
    ∀ x, x ∈ load_state (some f) ↔ x ∈ p := by
  unfold save_state at h
  cases hs : pySorted p with
  | none => rw [hs] at h; cases h
  | some l =>
    rw [hs] at h
    simp only [Option.some.injEq] at h
    subst h
    intro x
    have hall : l.all hashableJson = true := by
      rw [List.all_eq_true]
      intro y hy
      exact hp y ((pySorted_mem p l hs y).mp hy)
    rw [load_state_obj]
    have hget : dictGet [("processed_ids", Json.arr l)] "processed_ids" (.arr []) =
        Json.arr l := rfl
    rw [hget, pySet_arr, hall]
    simp only [if_true]
    rw [List.mem_dedup]
    exact pySorted_mem p l hs x

theorem cycle_error_file (cfg : Config) (gw : Gw) (file : Option FileContent)
    (e : String) (h : (process_messages cfg gw file).outcome = .error e) :
    (process_messages cfg gw file).file = file := by
  unfold process_messages at h ⊢
  cases hg : gw listCall with
  | error msg => rfl
  | ok v =>
    rw [hg] at h
    cases v with
    | none => simp at h
    | some j =>
      cases j with
      | arr entries =>
        dsimp only at h ⊢
        unfold finishCycle at h ⊢
        rcases hl : processLoop cfg gw entries (load_state file) with ⟨o, pr, cs⟩
        rw [hl] at h
        cases o with
        | error msg => rfl
        | ok u =>
          dsimp only at h ⊢
          cases hsv : save_state pr with
          | none => rfl
          | some f =>
            rw [hsv] at h
            simp at h
      | null => simp at h
      | bool b => simp at h
      | num n => simp at h
      | str t => simp at h
      | obj fs => simp at h

theorem cycle_nonlist (cfg : Config) (gw : Gw) (file : Option FileContent)
    (v : Option Json) (h1 : gw listCall = .ok v) (h2 : isPyList v = false) :
    process_messages cfg gw file = ⟨.ok (), file, [listCall]⟩ := by
  unfold process_messages
  rw [h1]
  cases v with
  | none => rfl
  | some j =>
    cases j with
    | arr entries => simp [isPyList] at h2
    | null => rfl
    | bool b => rfl
    | num n => rfl
    | str t => rfl
    | obj fs => rfl

theorem cycle_ok_cases (cfg : Config) (gw : Gw) (file : Option FileContent)
    (h : (process_messages cfg gw file).outcome = .ok ()) :
    (∃ v, gw listCall = .ok v ∧ isPyList v = false ∧
      process_messages cfg gw file = ⟨.ok (), file, [listCall]⟩) ∨
    (∃ entries pr cs f, gw listCall = .ok (some (.arr entries)) ∧
      processLoop cfg gw entries (load_state file) = ⟨.ok (), pr, cs⟩ ∧
      save_state pr = some f ∧
      process_messages cfg gw file = ⟨.ok (), some f, listCall :: cs⟩) := by
  cases hg : gw listCall with
  | error msg =>
    exfalso
    unfold process_messages at h
    rw [hg] at h
    simp at h
  | ok v =>
    cases hv : isPyList v with
    | false => exact Or.inl ⟨v, rfl, hv, cycle_nonlist cfg gw file v hg hv⟩
    | true =>
      have hx : ∃ entries, v = some (.arr entries) := by
        cases v with
        | none => simp [isPyList] at hv
        | some j =>
          cases j with
          | arr es => exact ⟨es, rfl⟩
          | null => simp [isPyList] at hv
          | bool b => simp [isPyList] at hv
          | num n => simp [isPyList] at hv
          | str t => simp [isPyList] at hv
          | obj fs => simp [isPyList] at hv
      obtain ⟨entries, rfl⟩ := hx
      unfold process_messages at h
      rw [hg] at h
      dsimp only at h
      unfold finishCycle at h
      rcases hl : processLoop cfg gw entries (load_state file) with ⟨o, pr, cs⟩
      rw [hl] at h
      cases o with
      | error msg => simp at h
      | ok u =>
        dsimp only at h
        cases hsv : save_state pr with
        | none => rw [hsv] at h; simp at h
        | some f =>
          cases u
          refine Or.inr ⟨entries, pr, cs, f, rfl, hl, hsv, ?_⟩
          unfold process_messages
          rw [hg]
          dsimp only
          unfold finishCycle
          rw [hl]
          dsimp only
          rw [hsv]

theorem cycle_skip_calls (cfg : Config) (gw : Gw) (file2 : Option FileContent)
    (entries : List Json)
    (hg : gw listCall = .ok (some (.arr entries)))
    (hl : processLoop cfg gw entries (load_state file2) = ⟨.ok (), load_state file2, []⟩) :
    (process_messages cfg gw file2).calls = [listCall] := by
  unfold process_messages
  rw [hg]
  dsimp only
  unfold finishCycle
  rw [hl]
  dsimp only
  cases hsv : save_state (load_state file2) with
  | none => rfl
  | some f => rfl

/-- C1: If a gateway call fails partway through the entry loop of a Processing
Cycle (or any other exception aborts the cycle), `save_state` is not reached,
so the state file after the cycle is exactly the file before it: the persisted
ProcessedIdSet is unchanged and in particular contains none of the ids already
replied to earlier in the same pass. -/
theorem C1_error_no_partial_save (cfg : Config) (gw : Gw) (file : Option FileContent)
    (e : String) (h : (process_messages cfg gw file).outcome = .error e) :
    (process_messages cfg gw file).file = file ∧
    load_state (process_messages cfg gw file).file = load_state file := by
  have hf := cycle_error_file cfg gw file e h
  exact ⟨hf, by rw [hf]⟩

/-- C1 witness: a gateway whose `send` fails for the second of three unseen
entries leaves the (absent) state file untouched. -/
theorem C1_error_no_partial_save_witness :
    (process_messages defaultConfig gwSendFail none).file = none ∧
    load_state (process_messages defaultConfig gwSendFail none).file = load_state none :=
  C1_error_no_partial_save defaultConfig gwSendFail none "send failed" rfl

/-- C4: When the inbox listing parses but is not a list, the cycle ends early
as a soft local failure: no entry is read or replied to (the only gateway call
is the listing), the state file is unchanged and the outcome is a normal
return, not an exception. -/
theorem C4_nonlist_soft_abort (cfg : Config) (gw : Gw) (file : Option FileContent)
    (v : Option Json) (h1 : gw listCall = .ok v) (h2 : isPyList v = false) :
    process_messages cfg gw file = ⟨.ok (), file, [listCall]⟩ :=
  cycle_nonlist cfg gw file v h1 h2

/-- C4 witness: a gateway whose listing is the JSON string "oops". -/
theorem C4_nonlist_soft_abort_witness :
    process_messages defaultConfig gwNotList none = ⟨.ok (), none, [listCall]⟩ :=
  C4_nonlist_soft_abort defaultConfig gwNotList none (some (.str "oops")) rfl rfl

/-- C5: `load_state` is total (no exception escapes it, matching the
`try ... except Exception` in the source) and returns the empty set both for a
missing state file and for a file whose content does not parse. -/
theorem C5_load_tolerant :
    load_state none = [] ∧ ∀ raw, load_state (some (.corrupt raw)) = [] :=
  ⟨rfl, fun _ => rfl⟩

/-- C6: For every set of identifier strings, saving it and loading it back
succeeds and yields exactly the same set of identifiers (order-independent
equality; the persisted representation is sorted). -/
theorem C6_save_load_roundtrip (ids : List String) :
    ∃ f, save_state (ids.map Json.str) = some f ∧
      ∀ x, x ∈ load_state (some f) ↔ x ∈ ids.map Json.str := by
  have hl : ∀ x ∈ ids.map Json.str, ∃ t, x = Json.str t := by
    intro x hx
    obtain ⟨t, _, rfl⟩ := List.mem_map.mp hx
    exact ⟨t, rfl⟩
  obtain ⟨l, hsort⟩ := pySorted_str (ids.map Json.str) hl
  have hsave : save_state (ids.map Json.str) =
      some (.json (.obj [("processed_ids", .arr l)])) := by
    unfold save_state
    rw [hsort]
  refine ⟨_, hsave, ?_⟩
  refine save_load_mem _ _ ?_ hsave
  intro x hx
  obtain ⟨t, rfl⟩ := hl x hx
  rfl

/-- C3 counterexample: the claim says that for every subject starting with
"re:" the result is the marker, a space, and the original subject `S`; but the
code appends the stripped subject, so any trailing whitespace in `S` refutes
the claim as stated. -/
theorem C3_counterexample :
    build_reply_subject "[Auto-Reply]" "re: hi " ≠ "[Auto-Reply] re: hi " := by
  decide

/-- C3 amended: `build_reply_subject` works on the stripped subject.  For an
empty subject the result is the marker, a space, "Re: " and "(no subject)";
for a non-empty subject whose stripped form starts (case-insensitively) with
"re:" the result is the marker, a space and the stripped subject; otherwise it
is the marker, a space, "Re: " and the stripped subject. -/
theorem C3_reply_subject (marker S : String) :
    (S = "" → build_reply_subject marker S = marker ++ " Re: (no subject)") ∧
    (S ≠ "" → pyStartsWith (pyLower (pyStrip S)) "re:" = true →
      build_reply_subject marker S = marker ++ " " ++ pyStrip S) ∧
    (S ≠ "" → pyStartsWith (pyLower (pyStrip S)) "re:" = false →
      build_reply_subject marker S = marker ++ " Re: " ++ pyStrip S) := by
  refine ⟨?_, ?_, ?_⟩
  · intro h
    subst h
    show (marker ++ " Re: ") ++ "(no subject)" = marker ++ " Re: (no subject)"
    rw [String.append_assoc]
    rfl
  · intro h1 h2
    have hes : effectiveSubject S = pyStrip S := if_neg h1
    unfold build_reply_subject
    rw [hes, if_pos h2]
  · intro h1 h2
    have hes : effectiveSubject S = pyStrip S := if_neg h1
    unfold build_reply_subject
    rw [hes, if_neg (by simp [h2])]

/-- C3 witness: a subject with surrounding whitespace already starting with
"re:" keeps only the marker as a new prefix, on the stripped subject. -/
theorem C3_reply_subject_witness :
    build_reply_subject "[Auto-Reply]" " re: hello " = "[Auto-Reply]" ++ " " ++ "re: hello" :=
  (C3_reply_subject "[Auto-Reply]" " re: hello ").2.1 (by decide) (by decide)

/-- C7: `run_mailgoat` as a function of the captured exit code and output
streams: a non-zero exit fails with the diagnostic built from the stripped
error stream, falling back to the stripped standard output, falling back to a
generic message; a zero exit with no (stripped) output returns the absent
result `none` instead of failing; and it fails exactly when the exit code is
non-zero or the non-empty output of a successful exit does not parse. -/
theorem C7_gateway_failure_contract (parse : String → Option Json) (r : RunOutcome) :
    (r.returncode ≠ 0 → run_mailgoat parse r = .error (failDiagnostic r)) ∧
    (r.returncode = 0 → pyStrip r.stdout = "" → run_mailgoat parse r = .ok none) ∧
    (r.returncode = 0 → pyStrip r.stdout ≠ "" → parse (pyStrip r.stdout) = none →
      run_mailgoat parse r = .error "JSONDecodeError") ∧
    ((∃ e, run_mailgoat parse r = .error e) ↔
      (r.returncode ≠ 0 ∨ (pyStrip r.stdout ≠ "" ∧ parse (pyStrip r.stdout) = none))) := by
  refine ⟨?_, ?_, ?_, ?_⟩
  · intro h
    unfold run_mailgoat
    rw [if_pos h]
  · intro h0 hout
    unfold run_mailgoat
    rw [if_neg (by simp [h0]), if_pos hout]
  · intro h0 hout hp
    unfold run_mailgoat
    rw [if_neg (by simp [h0]), if_neg hout, hp]
  · constructor
    · rintro ⟨e, he⟩
      unfold run_mailgoat at he
      by_cases hrc : r.returncode ≠ 0
      · exact Or.inl hrc
      · rw [if_neg hrc] at he
        refine Or.inr ?_
        by_cases hout : pyStrip r.stdout = ""
        · rw [if_pos hout] at he
          cases he
        · rw [if_neg hout] at he
          cases hp : parse (pyStrip r.stdout) with
          | some v => rw [hp] at he; cases he
          | none => exact ⟨hout, rfl⟩
    · rintro (hrc | ⟨hout, hp⟩)
      · exact ⟨failDiagnostic r, by unfold run_mailgoat; rw [if_pos hrc]⟩
      · by_cases hrc : r.returncode ≠ 0
        · exact ⟨failDiagnostic r, by unfold run_mailgoat; rw [if_pos hrc]⟩
        · refine ⟨"JSONDecodeError", ?_⟩
          unfold run_mailgoat
          rw [if_neg hrc, if_neg hout, hp]

/-- C7 witness: exit code 1 with both streams empty fails with the generic
diagnostic. -/
theorem C7_gateway_failure_contract_witness :
    run_mailgoat (fun _ => none) ⟨1, "", ""⟩ = .error "mailgoat command failed" :=
  (C7_gateway_failure_contract (fun _ => none) ⟨1, "", ""⟩).1 (by decide)

/-- C8: the poll loop never stops because of a cycle failure: after every
iteration (successful or failed) the slept interval is the same configured
constant (`POLL_SECONDS`, default 300) and the run continues with the next
iteration; when the cycle raises, the exception is caught and turned into a
diagnostic line. -/
theorem C8_scheduler_isolation (cfg : Config) (gw : Nat → Gw)
    (file0 : Option FileContent) (n : Nat) :
    (agent_step cfg (gw n) (agent_run cfg gw file0 n)).sleep = cfg.pollSeconds ∧
    agent_run cfg gw file0 (n + 1) = (agent_step cfg (gw n) (agent_run cfg gw file0 n)).file ∧
    (∀ e, (process_messages cfg (gw n) (agent_run cfg gw file0 n)).outcome = .error e →
      (agent_step cfg (gw n) (agent_run cfg gw file0 n)).diag =
        some ("Agent iteration failed: " ++ e)) ∧
    defaultConfig.pollSeconds = 300 := by
  refine ⟨?_, rfl, ?_, rfl⟩
  · unfold agent_step
    rcases hc : process_messages cfg (gw n) (agent_run cfg gw file0 n) with ⟨o, f, cs⟩
    cases o with
    | ok u => rfl
    | error e => rfl
  · intro e he
    unfold agent_step
    rcases hc : process_messages cfg (gw n) (agent_run cfg gw file0 n) with ⟨o, f, cs⟩
    rw [hc] at he
    cases o with
    | ok u => cases he
    | error msg =>
      cases he
      rfl

/-- C8 witness: a gateway that fails every call produces the caught
diagnostic on iteration 0. -/
theorem C8_scheduler_isolation_witness :
    (agent_step defaultConfig gwFail (agent_run defaultConfig (fun _ => gwFail) none 0)).diag =
      some ("Agent iteration failed: boom") :=
  (C8_scheduler_isolation defaultConfig (fun _ => gwFail) none 0).2.2.1 "boom" rfl

/-- C9: the ProcessedIdSet only grows.  Within every entry loop, each step
either leaves the in-memory set unchanged or adds an identifier (never
removes one); and across a cycle that returns normally, the persisted set
after the cycle is a superset of the set loaded at its start. -/
theorem C9_processed_set_grows :
    (∀ cfg (gw : Gw) entries p, ∀ x ∈ p, x ∈ (processLoop cfg gw entries p).processed) ∧
    (∀ cfg (gw : Gw) file, (process_messages cfg gw file).outcome = .ok () →
      ∀ x ∈ load_state file, x ∈ load_state (process_messages cfg gw file).file) := by
  refine ⟨fun cfg gw entries p => processLoop_sub cfg gw entries p, ?_⟩
  intro cfg gw file h x hx
  unfold process_messages at h ⊢
  cases hg : gw listCall with
  | error msg => rw [hg] at h; simp at h
  | ok v =>
    rw [hg] at h
    cases v with
    | none => exact hx
    | some j =>
      cases j with
      | arr entries =>
        dsimp only at h ⊢
        unfold finishCycle at h ⊢
        rcases hl : processLoop cfg gw entries (load_state file) with ⟨o, pr, cs⟩
        rw [hl] at h
        cases o with
        | error msg => simp at h
        | ok u =>
          dsimp only at h ⊢
          cases hsv : save_state pr with
          | none => rw [hsv] at h; simp at h
          | some f =>
            dsimp only
            have hpr : ∀ y ∈ pr, hashableJson y = true := by
              have hh := processLoop_hashable cfg gw entries (load_state file)
                (load_state_hashable file)
              rw [hl] at hh
              exact hh
            refine (save_load_mem pr f hpr hsv x).mpr ?_
            have hsub := processLoop_sub cfg gw entries (load_state file) x hx
            rw [hl] at hsub
            exact hsub
      | null => exact hx
      | bool b => exact hx
      | num n => exact hx
      | str t => exact hx
      | obj fs => exact hx

/-- C9 witness: an id loaded from the state file is still persisted after a
successful cycle that processed a new message. -/
theorem C9_processed_set_grows_witness :
    Json.str "m0" ∈ load_state (process_messages defaultConfig gwDemo fileDemo).file :=
  C9_processed_set_grows.2 defaultConfig gwDemo fileDemo rfl (Json.str "m0") (by decide)

/-- C10: when `read` succeeds but produces no output for an unseen entry, the
parsed payload is `None` and the cycle raises (`None` has no `.get`) instead
of skipping: the entry is not marked processed, the pass stops right after
that `read` call, and the state file is untouched. -/
theorem C10_read_none_aborts (cfg : Config) (gw : Gw) (file : Option FileContent)
    (fields : List (String × Json)) (rest : List Json)
    (h1 : gw listCall = .ok (some (.arr (Json.obj fields :: rest))))
    (h2 : entryIdOf fields ≠ "")
    (h3 : Json.str (entryIdOf fields) ∉ load_state file)
    (h4 : gw ["read", entryIdOf fields] = .ok none) :
    process_messages cfg gw file =
      ⟨.error attrErrMsg, file, [listCall, ["read", entryIdOf fields]]⟩ := by
  have hhe : handleEntry cfg gw (load_state file) (Json.obj fields) =
      (.error attrErrMsg, [["read", entryIdOf fields]]) := by
    unfold handleEntry
    dsimp only
    rw [if_neg (not_or.mpr ⟨h2, h3⟩), h4]
  unfold process_messages
  rw [h1]
  dsimp only
  unfold finishCycle
  rw [processLoop_cons, hhe]

/-- C10 witness: a single unseen entry `m9` whose `read` returns the empty
result aborts the cycle with the modelled `AttributeError`. -/
theorem C10_read_none_aborts_witness :
    process_messages defaultConfig gwReadNone none =
      ⟨.error attrErrMsg, none, [listCall, ["read", "m9"]]⟩ :=
  C10_read_none_aborts defaultConfig gwReadNone none [("id", .str "m9")] []
    rfl (by decide) (by decide) rfl

/-- C2: after a Processing Cycle over a listing ends without an exception,
a second cycle over the same listing performs no `read` and no `send` call:
its only gateway call is the listing itself, and every listed entry with a
non-empty trimmed id is a member of the persisted set loaded by the second
cycle, so all entries are skipped (entries with empty ids are skipped in both
passes). -/
theorem C2_second_pass_no_new_replies (cfg : Config) (gw : Gw)
    (file : Option FileContent)
    (h : (process_messages cfg gw file).outcome = .ok ()) :
    (process_messages cfg gw (process_messages cfg gw file).file).calls = [listCall] ∧
    (∀ c ∈ (process_messages cfg gw (process_messages cfg gw file).file).calls,
      c.head? ≠ some "read" ∧ c.head? ≠ some "send") ∧
    (∀ entries2, gw listCall = .ok (some (.arr entries2)) →
      ∀ fields, Json.obj fields ∈ entries2 → entryIdOf fields ≠ "" →
        Json.str (entryIdOf fields) ∈ load_state (process_messages cfg gw file).file) := by
  rcases cycle_ok_cases cfg gw file h with
    ⟨v, hg, hv, hcyc⟩ | ⟨entries, pr, cs, f, hg, hl, hsv, hcyc⟩
  · have hfile : (process_messages cfg gw file).file = file := by rw [hcyc]
    rw [hfile]
    refine ⟨?_, ?_, ?_⟩
    · rw [hcyc]
    · intro c hc
      rw [hcyc] at hc
      simp only [List.mem_singleton] at hc
      subst hc
      exact ⟨by decide, by decide⟩
    · intro entries2 hg2 fields hmem hid
      rw [hg] at hg2
      injection hg2 with hv2
      subst hv2
      simp [isPyList] at hv
  · have hfile : (process_messages cfg gw file).file = some f := by rw [hcyc]
    have hpr : ∀ y ∈ pr, hashableJson y = true := by
      have hh := processLoop_hashable cfg gw entries (load_state file)
        (load_state_hashable file)
      rw [hl] at hh
      exact hh
    have hrt := save_load_mem pr f hpr hsv
    have hcov := processLoop_ok_covered cfg gw entries (load_state file) (by rw [hl])
    have hcov2 : ∀ e ∈ entries, ∃ fields, e = .obj fields ∧
        (entryIdOf fields = "" ∨ Json.str (entryIdOf fields) ∈ load_state (some f)) := by
      intro e he
      obtain ⟨fields, hf, hc⟩ := hcov e he
      refine ⟨fields, hf, ?_⟩
      rcases hc with hid | hin
      · exact Or.inl hid
      · rw [hl] at hin
        exact Or.inr ((hrt _).mpr hin)
    have hskip := processLoop_all_skip cfg gw entries (load_state (some f)) hcov2
    have hcalls : (process_messages cfg gw (some f)).calls = [listCall] :=
      cycle_skip_calls cfg gw (some f) entries hg hskip
    rw [hfile]
    refine ⟨hcalls, ?_, ?_⟩
    · intro c hc
      rw [hcalls] at hc
      simp only [List.mem_singleton] at hc
      subst hc
      exact ⟨by decide, by decide⟩
    · intro entries2 hg2 fields hmem hid
      rw [hg] at hg2
      injection hg2 with hv2
      injection hv2 with hv3
      injection hv3 with hv4
      subst hv4
      obtain ⟨fields2, hf, hc⟩ := hcov (Json.obj fields) hmem
      injection hf with hff
      subst hff
      rcases hc with hid2 | hin
      · exact absurd hid2 hid
      · rw [hl] at hin
        exact (hrt _).mpr hin

/-- C2 witness: replaying the demo gateway after its successful first cycle
issues only the listing call. -/
theorem C2_second_pass_no_new_replies_witness :
    (process_messages defaultConfig gwDemo
      (process_messages defaultConfig gwDemo none).file).calls = [listCall] ∧
    (∀ c ∈ (process_messages defaultConfig gwDemo
        (process_messages defaultConfig gwDemo none).file).calls,
      c.head? ≠ some "read" ∧ c.head? ≠ some "send") ∧
    (∀ entries2, gwDemo listCall = .ok (some (.arr entries2)) →
      ∀ fields, Json.obj fields ∈ entries2 → entryIdOf fields ≠ "" →
        Json.str (entryIdOf fields) ∈
          load_state (process_messages defaultConfig gwDemo none).file) :=
  C2_second_pass_no_new_replies defaultConfig gwDemo none rfl

end MailGoatAgent
